import Mathlib

/-!
Verification of the `RecentChats` component
(`listen-interface/src/components/RecentChats.tsx`).

The component reads all chats from an asynchronous local cache, sorts them by
`lastMessageAt` descending, keeps the first five, and renders one link row per
chat followed by a "view all" row. The shallow embedding below models the
component's pure data flow: the resolved (or rejected) cache read is a
parameter, JS arrays become lists, the JS `Date` becomes its `getTime()`
value in milliseconds (an integer), and the external date-fns call is
represented by the arguments handed to it.
-/

namespace Listen

/-- Modelled from the spec: the message records of a `Chat` (declared in
`types/message.ts`, which is not among the included sources). Each record
holds at least a `message` text field. -/
structure ChatMessage where
  message : String
  deriving DecidableEq

/-- Modelled from the spec: the `Chat` record from `types/message.ts` (not
among the included sources): `id` an opaque string identifier, `title` an
optional human-readable label, `messages` the ordered message list,
`lastMessageAt` the timestamp of the most recent message — a JS `Date`,
represented by its `getTime()` value in milliseconds. -/
structure Chat where
  id : String
  title : Option String
  messages : List ChatMessage
  lastMessageAt : Int
  deriving DecidableEq

/-- The sort comparator of `loadRecentChats` (RecentChats.tsx lines 20-24),
`(b.lastMessageAt.getTime() ?? 0) - (a.lastMessageAt.getTime() ?? 0)`,
expressed as the order it induces: `getTime()` always returns a number, so
`?? 0` never fires, and element `a` may precede element `b` exactly when the
comparator value is `≤ 0`, i.e. when `b.lastMessageAt ≤ a.lastMessageAt`
(descending by recency). -/
def chatLe (a b : Chat) : Bool :=
  b.lastMessageAt ≤ a.lastMessageAt

/-- Lines 19-25: `allChats.sort(comparator).slice(0, 5)`. JS `Array.sort` is
a stable comparison sort (modelled by `List.mergeSort`, also stable) and
`slice(0, 5)` takes the first five elements. -/
def recentOf (allChats : List Chat) : List Chat :=
  (allChats.mergeSort chatLe).take 5

/-- Lines 15-31: the async `loadRecentChats` body together with its call site
`loadRecentChats();`. The argument `cacheResult` is the settled outcome of
`chatCache.getAll()`. The body has no `try`/`catch` and the call site attaches
no rejection handler, so a rejected read leaves the effect's promise rejected
at the component boundary: the first component of the result is that settled
outcome. The second component is the `recentChats` state after the effect:
`setRecentChats` is called exactly when `allChats.length > 0`, otherwise the
previous state `prev` (initially `[]`, line 11) is kept. -/
def loadRecentChats (prev : List Chat) (cacheResult : Except String (List Chat)) :
    Except String Unit × List Chat :=
  match cacheResult with
  | .error e => (.error e, prev)
  | .ok allChats =>
      if 0 < allChats.length then (.ok (), recentOf allChats)
      else (.ok (), prev)

/-- The date-fns locale objects the component can pass on: `zhCN` (imported on
line 3); passing `undefined` (here `none`) selects the date-fns default
locale. -/
inductive Locale where
  | zhCN
  deriving DecidableEq

/-- The JS builtin `String.prototype.startsWith`, embedded structurally over
the string's character list. -/
def strStartsWith (s pre : String) : Bool :=
  pre.data.isPrefixOf s.data

/-- Lines 33-35: `i18n.language.startsWith("zh") ? zhCN : undefined`. -/
def getLocale (language : String) : Option Locale :=
  if strStartsWith language "zh" then some .zhCN else none

/-- The fallback label on line 48, `chat.messages[0]?.message.slice(0, 20) + "..."`.
When `messages` is empty the optional chain evaluates to `undefined`, and JS
string concatenation coerces it, producing the literal `"undefined..."`. -/
def chatPreview (chat : Chat) : String :=
  (match chat.messages.head? with
   | some m => m.message.take 20
   | none => "undefined") ++ "..."

/-- Line 48: `chat.title || chat.messages[0]?.message.slice(0, 20) + "..."`.
JS `||` yields the right operand when `chat.title` is `undefined` or the
empty string (both falsy). -/
def chatLabel (chat : Chat) : String :=
  match chat.title with
  | some t => if t = "" then chatPreview chat else t
  | none => chatPreview chat

/-- The arguments of the `formatDistanceToNow` call on lines 51-54. date-fns
is an external collaborator, so the rendered relative-time string is
represented by the data it is derived from: the chat's timestamp,
`addSuffix: true`, and the locale chosen by `getLocale`. -/
structure RelTime where
  timestamp : Int
  addSuffix : Bool
  locale : Option Locale
  deriving DecidableEq

/-- One row of the rendered output: a chat `Link` (lines 40-57) carrying the
target chat id, the label of line 48 and the relative time of lines 50-55,
or the "view all" `Link` to the chat-history route (lines 59-66). -/
inductive Row where
  | chatRow (chatId : String) (label : String) (time : RelTime)
  | viewAllRow
  deriving DecidableEq

/-- The chat `Link` rendered for one chat (lines 40-57). -/
def chatRowOf (language : String) (chat : Chat) : Row :=
  .chatRow chat.id (chatLabel chat) ⟨chat.lastMessageAt, true, getLocale language⟩

/-- Lines 37-68: the rendered output — one row per element of `recentChats`
(in order), followed by the "view all" row exactly when
`recentChats.length > 0` (the JSX `cond && <Link/>` renders nothing when the
condition is false). -/
def render (recentChats : List Chat) (language : String) : List Row :=
  recentChats.map (chatRowOf language) ++
    (if 0 < recentChats.length then [Row.viewAllRow] else [])

/-- The succession of values of the `recentChats` state over one activation:
`useState<Chat[]>([])` gives the initial empty state (line 11), and the mount
effect (`useEffect` with `[]` deps, lines 15-31) runs once, calling
`setRecentChats` exactly when the resolved `getAll` result is non-empty; a
rejected read never reaches `setRecentChats`. -/
def componentStates (cacheResult : Except String (List Chat)) : List (List Chat) :=
  [] :: (match cacheResult with
    | .error _ => []
    | .ok allChats => if 0 < allChats.length then [recentOf allChats] else [])

/-- The comparator order is transitive. -/
theorem chatLe_trans : ∀ (a b c : Chat), chatLe a b → chatLe b c → chatLe a c := by
  intro a b c hab hbc
  simp only [chatLe, decide_eq_true_eq] at *
  omega

/-- The comparator order is total. -/
theorem chatLe_total : ∀ (a b : Chat), chatLe a b || chatLe b a := by
  intro a b
  simp only [chatLe, Bool.or_eq_true, decide_eq_true_eq]
  omega

/-- The sorted snapshot is pairwise descending on `lastMessageAt`. -/
theorem recentOf_pairwise (allChats : List Chat) :
    (recentOf allChats).Pairwise (fun a b => b.lastMessageAt ≤ a.lastMessageAt) := by
  have hs : (allChats.mergeSort chatLe).Pairwise (fun a b => chatLe a b) :=
    List.sorted_mergeSort chatLe_trans chatLe_total allChats
  have ht : (recentOf allChats).Pairwise (fun a b => chatLe a b) :=
    hs.sublist (List.take_sublist 5 _)
  exact ht.imp (by intro a b h; simpa [chatLe] using h)

/-- C2: for every set of cached chats returned by the cache's getAll, the
state stored and exposed by the load effect holds at most five entries. -/
theorem loadRecentChats_at_most_five (allChats : List Chat) :
    (loadRecentChats [] (Except.ok allChats)).2.length ≤ 5 := by
  simp only [loadRecentChats, recentOf]
  split
  · simp [List.length_take]
  · simp

/-- C3: the stored sequence is sorted descending by `lastMessageAt`: whenever
entry `a` is positioned before entry `b`, `b.lastMessageAt ≤ a.lastMessageAt`. -/
theorem loadRecentChats_sorted_desc (allChats : List Chat) :
    ((loadRecentChats [] (Except.ok allChats)).2).Pairwise
      (fun a b => b.lastMessageAt ≤ a.lastMessageAt) := by
  simp only [loadRecentChats]
  split
  · exact recentOf_pairwise allChats
  · simp

/-- The part of the sorted snapshot that `slice(0, 5)` drops. -/
def droppedChats (allChats : List Chat) : List Chat :=
  (allChats.mergeSort chatLe).drop 5

/-- A titled chat with no messages, used to instantiate theorems at concrete
inputs. -/
def chatAt (i : String) (t : Int) : Chat :=
  { id := i, title := some ("chat " ++ i), messages := [], lastMessageAt := t }

/-- Six cached chats with timestamps 999 down to 994 milliseconds (the spec's
T-1 .. T-6 scenario). -/
def chatsSix : List Chat :=
  [chatAt "f" 994, chatAt "b" 998, chatAt "d" 996, chatAt "a" 999,
   chatAt "c" 997, chatAt "e" 995]

/-- C4: when the cache holds more than five chats, the stored state is exactly
the five chats with the greatest `lastMessageAt` values: it has length five,
together with the dropped chats it is a permutation of the whole cache, and
every dropped chat's timestamp is at most every kept chat's timestamp. -/
theorem loadRecentChats_five_greatest (allChats : List Chat)
    (h : 5 < allChats.length) :
    (loadRecentChats [] (Except.ok allChats)).2.length = 5 ∧
    List.Perm ((loadRecentChats [] (Except.ok allChats)).2 ++ droppedChats allChats)
      allChats ∧
    ∀ a ∈ (loadRecentChats [] (Except.ok allChats)).2, ∀ b ∈ droppedChats allChats,
      b.lastMessageAt ≤ a.lastMessageAt := by
  have h0 : 0 < allChats.length := by omega
  have hstate : (loadRecentChats [] (Except.ok allChats)).2 = recentOf allChats := by
    simp [loadRecentChats, h0]
  rw [hstate]
  have hsplit : recentOf allChats ++ droppedChats allChats = allChats.mergeSort chatLe :=
    List.take_append_drop 5 _
  refine ⟨?_, ?_, ?_⟩
  · simp only [recentOf, List.length_take, List.length_mergeSort]
    omega
  · rw [hsplit]
    exact List.mergeSort_perm allChats chatLe
  · have hs : (allChats.mergeSort chatLe).Pairwise (fun a b => chatLe a b) :=
      List.sorted_mergeSort chatLe_trans chatLe_total allChats
    rw [← hsplit] at hs
    have := (List.pairwise_append.mp hs).2.2
    intro a ha b hb
    simpa [chatLe] using this a ha b hb

/-- C4 witness: the T-1 .. T-6 scenario on six concrete chats. -/
theorem loadRecentChats_five_greatest_witness :
    5 < chatsSix.length ∧
    ((loadRecentChats [] (Except.ok chatsSix)).2.length = 5 ∧
     List.Perm ((loadRecentChats [] (Except.ok chatsSix)).2 ++ droppedChats chatsSix)
       chatsSix ∧
     ∀ a ∈ (loadRecentChats [] (Except.ok chatsSix)).2, ∀ b ∈ droppedChats chatsSix,
       b.lastMessageAt ≤ a.lastMessageAt) :=
  ⟨by decide, loadRecentChats_five_greatest chatsSix (by decide)⟩

/-- C5: the "view all" row appears iff the loaded chat list is non-empty; when
non-empty there is exactly one such row and it is appended after the chat rows,
and when empty no rows at all are rendered. -/
theorem render_view_all (recentChats : List Chat) (language : String) :
    (recentChats = [] → render recentChats language = []) ∧
    (recentChats ≠ [] →
      render recentChats language
        = recentChats.map (chatRowOf language) ++ [Row.viewAllRow] ∧
      (∀ r ∈ recentChats.map (chatRowOf language), r ≠ Row.viewAllRow) ∧
      List.count Row.viewAllRow (render recentChats language) = 1) := by
  constructor
  · rintro rfl
    simp [render]
  · intro hne
    have hlen : 0 < recentChats.length := List.length_pos.mpr hne
    have heq : render recentChats language
        = recentChats.map (chatRowOf language) ++ [Row.viewAllRow] := by
      simp [render, hlen]
    have hrows : ∀ r ∈ recentChats.map (chatRowOf language), r ≠ Row.viewAllRow := by
      intro r hr
      obtain ⟨c, _, rfl⟩ := List.mem_map.mp hr
      simp [chatRowOf]
    refine ⟨heq, hrows, ?_⟩
    rw [heq, List.count_append]
    have hzero : List.count Row.viewAllRow (recentChats.map (chatRowOf language)) = 0 :=
      List.count_eq_zero.mpr (fun hmem => hrows _ hmem rfl)
    simp [hzero, List.count_singleton]

/-- C5 witness: a singleton list renders exactly one "view all" row, and the
empty list renders nothing. -/
theorem render_view_all_witness :
    List.count Row.viewAllRow (render [chatAt "a" 5] "en") = 1 ∧
    render ([] : List Chat) "en" = [] :=
  ⟨((render_view_all [chatAt "a" 5] "en").2 (by simp)).2.2,
   (render_view_all [] "en").1 rfl⟩

/-- A chat whose `title` is present but equal to the empty string. -/
def emptyTitleChat : Chat :=
  { id := "c6", title := some "",
    messages := [{ message := "hello world, how are you" }], lastMessageAt := 0 }

set_option maxRecDepth 100000 in
/-- C6 counterexample: a chat whose title is set (to the empty string) is not
rendered verbatim — the `||` fallback renders the message preview instead, so
the label differs from the title. -/
theorem chatLabel_empty_title_not_verbatim :
    emptyTitleChat.title = some "" ∧
    chatLabel emptyTitleChat ≠ "" ∧
    chatLabel emptyTitleChat = "hello world, how are..." := by
  exact ⟨rfl, by decide, rfl⟩

/-- C6 amended: the row label is the title verbatim when the title is set and
non-empty; when the title is absent or empty, it is the first 20 characters of
the first message followed by an ellipsis marker (provided a first message
exists); and every rendered chat row carries exactly this label. -/
theorem chatLabel_amended (chat : Chat) :
    (∀ t, chat.title = some t → t ≠ "" → chatLabel chat = t) ∧
    ((chat.title = none ∨ chat.title = some "") →
      ∀ m, chat.messages.head? = some m →
        chatLabel chat = m.message.take 20 ++ "...") ∧
    (∀ language, chatRowOf language chat
      = Row.chatRow chat.id (chatLabel chat)
          ⟨chat.lastMessageAt, true, getLocale language⟩) := by
  refine ⟨?_, ?_, fun _ => rfl⟩
  · intro t ht hne
    simp [chatLabel, ht, hne]
  · rintro (ht | ht) m hm <;> simp [chatLabel, ht, chatPreview, hm]

/-- A chat with a non-empty title. -/
def titledChat : Chat :=
  { id := "w1", title := some "My chat", messages := [], lastMessageAt := 0 }

/-- A chat with no title and one short message. -/
def untitledChat : Chat :=
  { id := "w2", title := none, messages := [{ message := "hi" }],
    lastMessageAt := 0 }

/-- C6 witness: a non-empty title renders verbatim; an absent title renders
the message preview with the ellipsis marker. -/
theorem chatLabel_amended_witness :
    chatLabel titledChat = "My chat" ∧ chatLabel untitledChat = "hi..." :=
  ⟨(chatLabel_amended titledChat).1 "My chat" rfl (by decide),
   ((chatLabel_amended untitledChat).2.1 (Or.inl rfl)
      { message := "hi" } rfl).trans rfl⟩

/-- C7: each rendered chat row carries a relative-time value derived from the
chat's `lastMessageAt` with the locale chosen by the active UI language; the
alternate locale `zhCN` is selected exactly when the language tag starts with
"zh", and every other language uses the default locale (`none`). -/
theorem render_time_locale (recentChats : List Chat) (language : String)
    (chat : Chat) (hc : chat ∈ recentChats) :
    Row.chatRow chat.id (chatLabel chat)
        ⟨chat.lastMessageAt, true, getLocale language⟩ ∈ render recentChats language ∧
    (getLocale language = some Locale.zhCN ↔ strStartsWith language "zh" = true) ∧
    (¬ strStartsWith language "zh" = true → getLocale language = none) := by
  refine ⟨?_, ?_, ?_⟩
  · exact List.mem_append_left _ (List.mem_map.mpr ⟨chat, hc, rfl⟩)
  · unfold getLocale
    constructor
    · intro h
      by_contra hzh
      simp [hzh] at h
    · intro h
      simp [h]
  · intro h
    simp [getLocale, h]

/-- C7 witness: concrete rows for a Chinese and a default language tag. -/
theorem render_time_locale_witness :
    (Row.chatRow (chatAt "z" 1).id (chatLabel (chatAt "z" 1))
        ⟨(chatAt "z" 1).lastMessageAt, true, getLocale "zh-CN"⟩
      ∈ render [chatAt "z" 1] "zh-CN") ∧
    getLocale "zh-CN" = some Locale.zhCN ∧
    getLocale "en" = none := by
  have h := render_time_locale [chatAt "z" 1] "zh-CN" (chatAt "z" 1) (by simp)
  have h2 := render_time_locale [chatAt "z" 1] "en" (chatAt "z" 1) (by simp)
  exact ⟨h.1, h.2.1.mpr (by decide), h2.2.2 (by decide)⟩

/-- C8: over one activation the component starts in the empty state, changes
state at most once (after the single read resolves), and every later state is
populated with one to five chats — so no transition back to empty ever
occurs. -/
theorem componentStates_lifecycle (cacheResult : Except String (List Chat)) :
    (componentStates cacheResult).head? = some [] ∧
    (componentStates cacheResult).length ≤ 2 ∧
    ∀ s ∈ (componentStates cacheResult).tail, 1 ≤ s.length ∧ s.length ≤ 5 := by
  refine ⟨rfl, ?_, ?_⟩
  · match cacheResult with
    | .error _ => simp [componentStates]
    | .ok allChats =>
      simp only [componentStates]
      split <;> simp
  · intro s hs
    match cacheResult with
    | .error _ => simp [componentStates] at hs
    | .ok allChats =>
      simp only [componentStates] at hs
      split at hs
      · rename_i hpos
        simp only [List.tail_cons, List.mem_singleton] at hs
        subst hs
        simp only [recentOf, List.length_take, List.length_mergeSort]
        omega
      · simp at hs

/-- C8 witness: with one cached chat, the populated state holds between one
and five chats. -/
theorem componentStates_lifecycle_witness :
    (recentOf [chatAt "w8" 3] ∈ (componentStates (Except.ok [chatAt "w8" 3])).tail) ∧
    1 ≤ (recentOf [chatAt "w8" 3]).length ∧ (recentOf [chatAt "w8" 3]).length ≤ 5 := by
  have hmem : recentOf [chatAt "w8" 3]
      ∈ (componentStates (Except.ok [chatAt "w8" 3])).tail := by
    simp [componentStates]
  exact ⟨hmem,
    (componentStates_lifecycle (Except.ok [chatAt "w8" 3])).2.2 _ hmem⟩

/-- C9: the load effect never alters a Chat record obtained from the cache —
every chat it stores is, field for field, one of the records `getAll`
returned, and sorting the snapshot merely permutes it. -/
theorem loadRecentChats_no_mutation (allChats : List Chat) (chat : Chat)
    (hc : chat ∈ (loadRecentChats [] (Except.ok allChats)).2) :
    chat ∈ allChats ∧ List.Perm (allChats.mergeSort chatLe) allChats := by
  refine ⟨?_, List.mergeSort_perm allChats chatLe⟩
  simp only [loadRecentChats] at hc
  split at hc
  · have := List.mem_of_mem_take hc
    exact List.mem_mergeSort.mp this
  · simp at hc

/-- C9 witness: the single stored chat is the cached record itself. -/
theorem loadRecentChats_no_mutation_witness :
    (chatAt "n" 7 ∈ (loadRecentChats [] (Except.ok [chatAt "n" 7])).2) ∧
    chatAt "n" 7 ∈ [chatAt "n" 7] := by
  have hmem : chatAt "n" 7 ∈ (loadRecentChats [] (Except.ok [chatAt "n" 7])).2 := by
    simp [loadRecentChats, recentOf, List.mergeSort]
  exact ⟨hmem, (loadRecentChats_no_mutation [chatAt "n" 7] (chatAt "n" 7) hmem).1⟩

/-- C1 counterexample: when the cache read rejects, the claim that no
exception escapes the component is false — the effect's promise settles
rejected at the component boundary (`loadRecentChats()` is called with no
`try`/`catch` and no rejection handler), rather than resolving handled. -/
theorem cacheFailure_rejection_escapes :
    (loadRecentChats [] (Except.error "boom")).1 = Except.error "boom" ∧
    (loadRecentChats [] (Except.error "boom")).1 ≠ Except.ok () := by
  exact ⟨rfl, by simp [loadRecentChats]⟩

/-- C1 amended: when the cache read rejects, the component's visible behavior
degrades to the empty state — the `recentChats` state stays `[]`, zero rows
are rendered, the state history is the empty state alone, and no retry is
attempted — but the rejection itself is not caught inside the component: the
effect's promise settles rejected (an unhandled rejection escapes). -/
theorem cacheFailure_degrades_to_empty (e : String) (language : String) :
    loadRecentChats [] (Except.error e) = (Except.error e, []) ∧
    render (loadRecentChats [] (Except.error e)).2 language = [] ∧
    componentStates (Except.error e) = [[]] := by
  exact ⟨rfl, by simp [loadRecentChats, render], rfl⟩

/-- C10: a chat with no title and an empty message list renders totally, with
the literal label "undefined..." (the `undefined` of the optional chain
coerced by JS string concatenation, followed by the ellipsis marker). -/
theorem chatLabel_no_title_no_messages (i : String) (t : Int) :
    chatLabel { id := i, title := none, messages := [], lastMessageAt := t }
      = "undefined..." := by
  simp [chatLabel, chatPreview]

end Listen
